import Mathlib

/-!
Verification development for the `boundation` external-dns provider for
opnsense unbound (Go sources: `internal/unbound/provider.go`,
`internal/unbound/records.go`, `internal/unbound/cache.go`).

Shallow embedding conventions:
* Go strings are modelled as Lean `String`; byte-level operations
  (`[]byte(s)`, `string(bs)`, base64) are modelled char-per-byte, which is
  exact for ASCII content (all names, record types and heritage strings in
  this system are ASCII).
* The HTTP client is modelled as an oracle mapping the calls already made
  and the current call to either a transport error or an HTTP response.
  Response bodies are abstracted to their two parse views (as an
  `OperationResponse` and as a `SearchHostResp`), mirroring what
  `json.Unmarshal` can produce for them.
* `http.NewRequestWithContext` never fails for the URLs this provider
  builds from a well-formed base URL, so request construction is modelled
  as always succeeding.
* Each effectful function returns its result together with the list of
  remote calls issued (the trace), threading the trace left to right
  exactly in program order.
-/

namespace Boundation

/-! ## Go string primitives (strings.TrimSpace, strings.Replace,
strings.Split, strings.Join, strings.HasPrefix) modelled on `List Char`. -/

/-- `unicode.IsSpace` restricted to the Latin-1 range, which is what
`strings.TrimSpace` tests on each rune (full Unicode spaces beyond Latin-1
do not occur in this system's data). -/
def goIsSpace (c : Char) : Bool :=
  c == ' ' || c == '\t' || c == '\n' || c == '\u000b' || c == '\u000c' ||
    c == '\r' || c == '\u0085' || c == '\u00A0'

/-- `strings.TrimSpace` on the character list: drop leading and trailing
whitespace. -/
def trimSpaceList (l : List Char) : List Char :=
  ((l.dropWhile goIsSpace).reverse.dropWhile goIsSpace).reverse

/-- `strings.TrimSpace`. -/
def goTrimSpace (s : String) : String :=
  String.mk (trimSpaceList s.data)

/-- `strings.Replace(s, old, new, 1)`: replace the first occurrence of
`old` (for empty `old`, insert at the beginning, as Go does). -/
def replaceFirstList (s old new : List Char) : List Char :=
  if old.isPrefixOf s then new ++ s.drop old.length
  else
    match s with
    | [] => s
    | c :: rest => c :: replaceFirstList rest old new

/-- `strings.Replace(s, old, new, 1)` on strings. -/
def goReplaceFirst (s old new : String) : String :=
  String.mk (replaceFirstList s.data old.data new.data)

/-- `strings.HasPrefix(s, pre)`. -/
def goHasPrefixB (s p : String) : Bool :=
  p.data.isPrefixOf s.data

/-- `strings.Split(s, sep)` for a one-character separator, on character
lists.  Always returns a non-empty list; splitting the empty string gives
`[[]]`, as in Go. -/
def splitChar (sep : Char) : List Char → List (List Char)
  | [] => [[]]
  | c :: rest =>
    let r := splitChar sep rest
    if c == sep then [] :: r
    else (c :: r.headD []) :: r.tail

/-- `strings.Join(parts, sep)` for a one-character separator, on character
lists. -/
def joinChar (sep : Char) : List (List Char) → List Char
  | [] => []
  | [x] => x
  | x :: y :: rest => x ++ sep :: joinChar sep (y :: rest)

/-- `strings.Split(s, ".")`. -/
def goSplitDots (s : String) : List String :=
  (splitChar '.' s.data).map String.mk

/-- `strings.Split(s, " ")`. -/
def goSplitSpace (s : String) : List String :=
  (splitChar ' ' s.data).map String.mk

/-- `strings.Join(parts, ".")`. -/
def goJoinDots (parts : List String) : String :=
  String.mk (joinChar '.' (parts.map String.data))

/-! ## Byte/string conversions.

Go strings are byte sequences; `[]byte(s)` / `string(bs)` are modelled
char-per-byte (exact for ASCII content). -/

def bytesOfString (s : String) : List Nat :=
  s.data.map Char.toNat

def stringOfBytes (bs : List Nat) : String :=
  String.mk (bs.map Char.ofNat)

/-! ## base64 (Go `encoding/base64` StdEncoding). -/

def base64Alphabet : List Char :=
  "ABCDEFGHIJKLMNOPQRSTUVWXYZabcdefghijklmnopqrstuvwxyz0123456789+/".data

def b64Char (n : Nat) : Char :=
  base64Alphabet.getD n 'A'

/-- `base64.StdEncoding.EncodeToString`: encode bytes three at a time into
four alphabet characters, padding a trailing group with `=`. -/
def base64EncodeBytes : List Nat → List Char
  | [] => []
  | [b0] => [b64Char (b0 / 4), b64Char (b0 % 4 * 16), '=', '=']
  | [b0, b1] =>
    [b64Char (b0 / 4), b64Char (b0 % 4 * 16 + b1 / 16), b64Char (b1 % 16 * 4), '=']
  | b0 :: b1 :: b2 :: rest =>
    b64Char (b0 / 4) :: b64Char (b0 % 4 * 16 + b1 / 16) ::
      b64Char (b1 % 16 * 4 + b2 / 64) :: b64Char (b2 % 64) :: base64EncodeBytes rest

/-- `base64.StdEncoding.EncodeToString([]byte(s))`. -/
def goBase64Encode (s : String) : String :=
  String.mk (base64EncodeBytes (bytesOfString s))

def b64IndexAux : List Char → Nat → Char → Option Nat
  | [], _, _ => none
  | x :: xs, i, c => if x == c then some i else b64IndexAux xs (i + 1) c

/-- Index of a character in the base64 alphabet (`=` and any other
non-alphabet character map to `none`). -/
def b64Index (c : Char) : Option Nat :=
  b64IndexAux base64Alphabet 0 c

/-- Decode groups of four base64 characters.  Padding (`=`) is accepted
only at the end of the input; a trailing group of fewer than four
characters is rejected.  Non-zero trailing padding bits are accepted, as
by Go's (non-Strict) `StdEncoding`. -/
def base64DecodeGroups : List Char → Option (List Nat)
  | [] => some []
  | c0 :: c1 :: c2 :: c3 :: rest =>
    match b64Index c0, b64Index c1 with
    | some n0, some n1 =>
      if c2 == '=' then
        if c3 == '=' && rest.isEmpty then some [n0 * 4 + n1 / 16] else none
      else
        match b64Index c2 with
        | some n2 =>
          if c3 == '=' then
            if rest.isEmpty then some [n0 * 4 + n1 / 16, n1 % 16 * 16 + n2 / 4]
            else none
          else
            match b64Index c3 with
            | some n3 =>
              (base64DecodeGroups rest).map
                (fun tl => (n0 * 4 + n1 / 16) :: (n1 % 16 * 16 + n2 / 4) ::
                  (n2 % 4 * 64 + n3) :: tl)
            | none => none
        | none => none
    | _, _ => none
  | _ => none

/-- `base64.StdEncoding.DecodeString`: newline characters are ignored
anywhere in the input, then the input is decoded strictly in groups of
four. -/
def goBase64Decode (s : String) : Option (List Nat) :=
  base64DecodeGroups (s.data.filter (fun c => !(c == '\r' || c == '\n')))

/-! ## Data model.

`Endpoint` mirrors `sigs.k8s.io/external-dns/endpoint.Endpoint` in the
fields this provider uses (`Labels` is modelled as an association list,
empty when the Go map is nil).  `Record` mirrors
`internal/unbound/records.go`'s `Record`. -/

structure Endpoint where
  dnsName : String
  targets : List String
  recordType : String
  setIdentifier : String := ""
  labels : List (String × String) := []
deriving Repr, DecidableEq

structure Record where
  uuid : String := ""
  hostname : String
  domain : String
  rr : String
  server : String
  enabled : String
  description : String
deriving Repr, DecidableEq

/-- `endpoint.Targets.String()`: targets joined with `";"`. -/
def targetsString (ts : List String) : String :=
  String.mk (joinChar ';' (ts.map String.data))

/-- `plan.Changes`. -/
structure Changes where
  create : List Endpoint := []
  updateOld : List Endpoint := []
  updateNew : List Endpoint := []
  delete : List Endpoint := []
deriving Repr, DecidableEq

/-- `plan.Changes.HasChanges()` (external-dns): true when there is
anything to create or delete, or the update lists differ. -/
def hasChanges (ch : Changes) : Bool :=
  !ch.create.isEmpty || !ch.delete.isEmpty || ch.updateNew != ch.updateOld

/-- `DescriptionPrefix` constant from `provider.go`. -/
def descriptionMark : String := "Managed by K8s external-dns"

/-- `supportedType` from `records.go`: only A and AAAA. -/
def supportedType (recordType : String) : Bool :=
  recordType == "A" || recordType == "AAAA"

/-! ## records.go -/

/-- `endpointsFromBase64Description`: when the description starts with the
fixed marker, strip its first occurrence, trim whitespace, base64-decode,
and on success synthesize two TXT endpoints (same name and `"a-" + name`)
carrying the decoded value; `none` models the `(nil, false)` returns. -/
def endpointsFromBase64Description (dnsName description : String) :
    Option (List Endpoint) :=
  if !(goHasPrefixB description descriptionMark) then none
  else
    let stripped := goTrimSpace (goReplaceFirst description descriptionMark "")
    match goBase64Decode stripped with
    | none => none
    | some decoded =>
      some [
        { dnsName := dnsName, targets := [stringOfBytes decoded],
          recordType := "TXT" },
        { dnsName := "a-" ++ dnsName, targets := [stringOfBytes decoded],
          recordType := "TXT" }]

/-- Body of the loop of `SearchHostResp.ToEndpoints` for a single row. -/
def rowToEndpoints (row : Record) : List Endpoint :=
  let m : Endpoint :=
    { dnsName := row.hostname ++ "." ++ row.domain
      targets := [row.server]
      recordType := (goSplitSpace row.rr).headD ""
      setIdentifier := row.uuid
      labels := if row.description != "" then [("description", row.description)] else [] }
  match endpointsFromBase64Description m.dnsName row.description with
  | some txts => m :: txts
  | none => [m]

/-- `SearchHostResp.ToEndpoints`: each row yields its address endpoint
followed by any synthesized TXT endpoints. -/
def toEndpoints (rows : List Record) : List Endpoint :=
  rows.flatMap rowToEndpoints

/-! ## cache.go

`cache.heritages` is a Go `map[string]string`; it is modelled as an
association list with unique keys (`cachePut` removes any previous
binding), and a map read of an absent key yields the zero value `""`. -/

def Cache := List (String × String)

instance : DecidableEq Cache := by
  unfold Cache
  infer_instance

def cachePut (c : Cache) (k v : String) : Cache :=
  c.filter (fun p => !(p.fst == k)) ++ [(k, v)]

def cacheDel (c : Cache) (k : String) : Cache :=
  c.filter (fun p => !(p.fst == k))

def cacheFind (c : Cache) (k : String) : Option String :=
  (c.find? (fun p => p.fst == k)).map Prod.snd

/-- Go map read: absent keys give the zero value. -/
def cacheGet (c : Cache) (k : String) : String :=
  (cacheFind c k).getD ""

/-- `cache.cacheFromSlice`: for each TXT endpoint store
`name → Targets.String()`; when the name has the `"a-"` prefix, also store
the stripped name (deliberate ambiguity-resolution heuristic). -/
def cacheFromSlice (eps : List Endpoint) : Cache :=
  eps.foldl
    (fun acc ep =>
      if ep.recordType == "TXT" then
        let acc1 := cachePut acc ep.dnsName (targetsString ep.targets)
        if goHasPrefixB ep.dnsName "a-" then
          cachePut acc1 (goReplaceFirst ep.dnsName "a-" "") (targetsString ep.targets)
        else acc1
      else acc)
    []

/-- `cache.removeRecords`: drop entries for deleted records of supported
(address) type. -/
def removeRecords (c : Cache) (toDel : List Endpoint) : Cache :=
  toDel.foldl
    (fun acc del => if supportedType del.recordType then cacheDel acc del.dnsName else acc)
    c

/-- `cache.updateFromPlan`: remove deleted records, then merge the cache
extracted from `Create ++ UpdateNew`. -/
def updateFromPlan (c : Cache) (ch : Changes) : Cache :=
  let c1 := removeRecords c ch.delete
  (cacheFromSlice (ch.create ++ ch.updateNew)).foldl
    (fun acc p => cachePut acc p.fst p.snd) c1

/-- `cache.updateReadRecords`: full replacement from a read. -/
def updateReadRecords (read : List Endpoint) : Cache :=
  cacheFromSlice read

/-- `appendToDescription`: `fmt.Sprintf("%v %v", DescriptionPrefix, toAppend)`. -/
def appendToDescription (toAppend : String) : String :=
  descriptionMark ++ " " ++ toAppend

/-- `cache.createDescription`: base64 of the cached heritage value for the
name (empty string when absent), framed by the marker. -/
def createDescription (c : Cache) (dnsName : String) : String :=
  appendToDescription (goBase64Encode (cacheGet c dnsName))

/-! ## Error model.

Go errors as this provider builds them: two sentinel errors
(`ErrRequestFailed`, `ErrMarshalling`), external errors (transport,
`json.Unmarshal`, ...), `fmt.Errorf("...: %w", inner)` wrapping and
`errors.Join`.  `errIs e target` is `errors.Is(e, target)` for a sentinel
target. -/

inductive GoErr where
  | requestFailed
  | marshalling
  | external (msg : String)
  | wrap (ctx : String) (inner : GoErr)
  | join (a b : GoErr)
deriving Repr, DecidableEq

def errIs : GoErr → GoErr → Bool
  | e, target =>
    e == target ||
      match e with
      | .wrap _ inner => errIs inner target
      | .join a b => errIs a target || errIs b target
      | _ => false

/-- `errors.Is(e, ErrRequestFailed)`. -/
def isRequestFailed (e : GoErr) : Bool :=
  errIs e .requestFailed

/-- `errors.Is(e, ErrMarshalling)`. -/
def isMarshalling (e : GoErr) : Bool :=
  errIs e .marshalling

/-! ## Remote interaction model. -/

/-- One remote call, identified the way the provider addresses it. -/
inductive Call where
  | search
  | addOverride (host : Record)
  | delOverride (setId : String)
  | reconfigure
deriving Repr, DecidableEq

/-- A response body, abstracted to its two parse views: as an
`OperationResponse` (`some r` means `json.Unmarshal` succeeds and the
`result` field is `r`; an absent field gives `""`) and as a
`SearchHostResp`. -/
structure Body where
  asOpResult : Option String := none
  asSearchRows : Option (List Record) := none
deriving Repr, DecidableEq

structure HTTPResp where
  status : Nat
  body : Body
deriving Repr, DecidableEq

/-- Result of `client.Do`: a transport error or a response. -/
inductive DoResult where
  | transportErr (msg : String)
  | resp (r : HTTPResp)
deriving Repr, DecidableEq

/-- The remote server: a response for each call, allowed to depend on the
calls already made. -/
abbrev Oracle := List Call → Call → DoResult

/-! ## provider.go effectful operations.

Each operation takes the oracle and the trace of calls already issued and
returns its `error` result together with the extended trace. -/

/-- `Unbound.checkResponse`: unmarshal the body as an `OperationResponse`
and require `result == wantResult`; unmarshal failure or a mismatch is
`ErrRequestFailed`. -/
def checkResponse (b : Body) (wantResult : String) : Except GoErr Unit :=
  match b.asOpResult with
  | none => .error (.wrap "response" .requestFailed)
  | some r =>
    if r == wantResult then .ok ()
    else .error (.wrap "response" .requestFailed)

/-- `Unbound.createTarget`: POST one payload to `addHostOverride`. -/
def createTarget (o : Oracle) (t : List Call) (host : Record) :
    Except GoErr Unit × List Call :=
  let t2 := t ++ [Call.addOverride host]
  match o t (Call.addOverride host) with
  | .transportErr m => (.error (.wrap "create http do" (.external m)), t2)
  | .resp r =>
    if r.status != 200 then (.error (.wrap "response status" .requestFailed), t2)
    else (checkResponse r.body "saved", t2)

/-- `Unbound.createRequestJSON`: one payload per target; hostname is the
first dot-separated segment of the DNS name, domain the remaining
segments; the description is stamped from the cache.
(`json.Marshal` cannot fail on these structs, so the payload is modelled
as the `Record` itself.) -/
def createRequestJSON (c : Cache) (ep : Endpoint) : List Record :=
  let dnsSplit := goSplitDots ep.dnsName
  ep.targets.map (fun target =>
    { enabled := "1"
      hostname := dnsSplit.headD ""
      domain := goJoinDots (dnsSplit.drop 1)
      server := target
      rr := ep.recordType
      description := createDescription c ep.dnsName })

/-- Loop body of `Unbound.createEndpoint` over the encoded payloads. -/
def createTargets (o : Oracle) (t : List Call) : List Record →
    Except GoErr Unit × List Call
  | [] => (.ok (), t)
  | r :: rest =>
    match createTarget o t r with
    | (.error e, t2) => (.error e, t2)
    | (.ok _, t2) => createTargets o t2 rest

/-- `Unbound.createEndpoint`. -/
def createEndpoint (o : Oracle) (t : List Call) (c : Cache) (ep : Endpoint) :
    Except GoErr Unit × List Call :=
  createTargets o t (createRequestJSON c ep)

/-- `Unbound.createEndpoints`: endpoints of unsupported record type are
skipped (logged only); a failing create aborts the loop. -/
def createEndpoints (o : Oracle) (t : List Call) (c : Cache) :
    List Endpoint → Except GoErr Unit × List Call
  | [] => (.ok (), t)
  | ep :: rest =>
    if supportedType ep.recordType then
      match createEndpoint o t c ep with
      | (.error e, t2) => (.error (.wrap "create endpoint" e), t2)
      | (.ok _, t2) => createEndpoints o t2 c rest
    else createEndpoints o t c rest

/-- `Unbound.deleteEndpoint`: POST to `delHostOverride/{setIdentifier}`. -/
def deleteEndpoint (o : Oracle) (t : List Call) (ep : Endpoint) :
    Except GoErr Unit × List Call :=
  let t2 := t ++ [Call.delOverride ep.setIdentifier]
  match o t (Call.delOverride ep.setIdentifier) with
  | .transportErr m => (.error (.wrap "delete http do" (.external m)), t2)
  | .resp r =>
    if r.status != 200 then (.error (.wrap "response status" .requestFailed), t2)
    else (checkResponse r.body "deleted", t2)

/-- `Unbound.deleteEndpoints`: every endpoint in the list is deleted (no
record-type filter); a failure is wrapped with the record's DNS name and
aborts the loop. -/
def deleteEndpoints (o : Oracle) (t : List Call) : List Endpoint →
    Except GoErr Unit × List Call
  | [] => (.ok (), t)
  | ep :: rest =>
    match deleteEndpoint o t ep with
    | (.error e, t2) => (.error (.wrap ep.dnsName e), t2)
    | (.ok _, t2) => deleteEndpoints o t2 rest

/-- `Unbound.reconfigure`: POST to the service reconfigure endpoint and
expect result `""`. -/
def reconfigure (o : Oracle) (t : List Call) : Except GoErr Unit × List Call :=
  let t2 := t ++ [Call.reconfigure]
  match o t Call.reconfigure with
  | .transportErr m => (.error (.wrap "reconfigure" (.external m)), t2)
  | .resp r =>
    if r.status != 200 then (.error (.wrap "response status" .requestFailed), t2)
    else (checkResponse r.body "", t2)

/-- `Unbound.Records`: GET the search endpoint; non-200 is
`ErrRequestFailed`; an unparsable body is `errors.Join(ErrMarshalling, _)`;
on success the known-records cache is fully replaced from the decoded
endpoints. -/
def records (o : Oracle) (c : Cache) :
    Except GoErr (List Endpoint) × List Call × Cache :=
  let t := [Call.search]
  match o [] Call.search with
  | .transportErr m => (.error (.wrap "records response" (.external m)), t, c)
  | .resp r =>
    if r.status != 200 then (.error (.wrap "status" .requestFailed), t, c)
    else
      match r.body.asSearchRows with
      | none =>
        (.error (.join .marshalling (.wrap "unmarshal resp" (.external "unmarshal"))), t, c)
      | some rows =>
        let eps := toEndpoints rows
        (.ok eps, t, updateReadRecords eps)

/-- `Unbound.ApplyChanges`: no-op when the plan has no changes; otherwise
update the cache from the plan, then delete `Delete ++ UpdateOld`, then
create `Create ++ UpdateNew`, then reconfigure; the first failure aborts
and is wrapped with its phase. -/
def applyChanges (o : Oracle) (c : Cache) (ch : Changes) :
    Except GoErr Unit × List Call × Cache :=
  if !hasChanges ch then (.ok (), [], c)
  else
    let c1 := updateFromPlan c ch
    match deleteEndpoints o [] (ch.delete ++ ch.updateOld) with
    | (.error e, t) => (.error (.wrap "plan delete" e), t, c1)
    | (.ok _, t) =>
      match createEndpoints o t c1 (ch.create ++ ch.updateNew) with
      | (.error e, t2) => (.error (.wrap "plan create" e), t2, c1)
      | (.ok _, t2) =>
        match reconfigure o t2 with
        | (.error e, t3) => (.error (.wrap "apply changes reconfigure endpoint" e), t3, c1)
        | (.ok _, t3) => (.ok (), t3, c1)

/-! ## Helper lemmas. -/

theorem string_append_empty (s : String) : s ++ "" = s := by
  apply String.ext
  simp [String.data_append]

theorem goBase64Encode_empty : goBase64Encode "" = "" := by
  apply String.ext
  rfl

theorem isRequestFailed_wrap (ctx : String) (e : GoErr) :
    isRequestFailed (GoErr.wrap ctx e) = isRequestFailed e := by
  simp [isRequestFailed, errIs]

theorem isRequestFailed_external (m : String) :
    isRequestFailed (GoErr.external m) = false := by
  simp [isRequestFailed, errIs]

theorem isMarshalling_wrap (ctx : String) (e : GoErr) :
    isMarshalling (GoErr.wrap ctx e) = isMarshalling e := by
  simp [isMarshalling, errIs]

/-! ## Claim theorems. -/

/-- C9: for every change-set with no changes (empty create, delete, and
update lists), `ApplyChanges` returns success (nil error) and issues zero
remote calls of any kind. -/
theorem applyChanges_empty_noop (o : Oracle) (c : Cache) :
    applyChanges o c { create := [], updateOld := [], updateNew := [], delete := [] } =
      (Except.ok (), ([] : List Call), c) := rfl

/-- C5: a read (`Records`) call returns an error testable as
`RequestFailed` (and not as `DecodeFailed`) when the remote responds with
a non-success HTTP status, and an error testable as `DecodeFailed` /
`ErrMarshalling` (and not as `RequestFailed`) when the response body does
not parse as the expected shape; the two error kinds are thus
independently testable. -/
theorem records_error_kinds (o : Oracle) (c : Cache) :
    (∀ r, o [] Call.search = DoResult.resp r → r.status ≠ 200 →
      (records o c).1 = Except.error (GoErr.wrap "status" GoErr.requestFailed) ∧
      isRequestFailed (GoErr.wrap "status" GoErr.requestFailed) = true ∧
      isMarshalling (GoErr.wrap "status" GoErr.requestFailed) = false) ∧
    (∀ r, o [] Call.search = DoResult.resp r → r.status = 200 →
      r.body.asSearchRows = none →
      (records o c).1 = Except.error (GoErr.join GoErr.marshalling
        (GoErr.wrap "unmarshal resp" (GoErr.external "unmarshal"))) ∧
      isMarshalling (GoErr.join GoErr.marshalling
        (GoErr.wrap "unmarshal resp" (GoErr.external "unmarshal"))) = true ∧
      isRequestFailed (GoErr.join GoErr.marshalling
        (GoErr.wrap "unmarshal resp" (GoErr.external "unmarshal"))) = false) := by
  constructor
  · intro r ho hs
    refine ⟨?_, by decide, by decide⟩
    simp only [records, ho]
    rw [if_pos (by simpa [bne_iff_ne] using hs)]
  · intro r ho hs hrows
    refine ⟨?_, by decide, by decide⟩
    simp only [records, ho]
    rw [if_neg (by simp [hs]), hrows]

/-- C6: encoding an outgoing address record emits one remote payload per
target value; every emitted payload's description equals the fixed marker,
a single space, and the base64 encoding of the ownership cache's value for
the record's name; when the cache has no entry for the name the
description is the marker plus the trailing space plus empty base64
output.  This holds for every endpoint, whatever its name or kind. -/
theorem createRequestJSON_description_stamp (c : Cache) (ep : Endpoint) :
    (createRequestJSON c ep).length = ep.targets.length ∧
    (∀ r ∈ createRequestJSON c ep,
      r.description = descriptionMark ++ " " ++ goBase64Encode (cacheGet c ep.dnsName)) ∧
    (cacheFind c ep.dnsName = none →
      ∀ r ∈ createRequestJSON c ep, r.description = descriptionMark ++ " ") := by
  refine ⟨by simp [createRequestJSON], ?_, ?_⟩
  · intro r hr
    simp only [createRequestJSON, List.mem_map] at hr
    obtain ⟨t, _, rfl⟩ := hr
    rfl
  · intro hnone r hr
    simp only [createRequestJSON, List.mem_map] at hr
    obtain ⟨t, _, rfl⟩ := hr
    show createDescription c ep.dnsName = descriptionMark ++ " "
    rw [createDescription, cacheGet, hnone]
    show appendToDescription (goBase64Encode "") = descriptionMark ++ " "
    rw [appendToDescription, goBase64Encode_empty, string_append_empty]

/-- C10: a `Records` call that fails — transport failure, non-200 status,
or response-body decode failure — leaves the known-records ownership cache
exactly as it was; only a successful call replaces it, with the cache
rebuilt from the freshly decoded endpoints. -/
theorem records_cache_update (o : Oracle) (c : Cache) :
    (∀ e t c2, records o c = (Except.error e, t, c2) → c2 = c) ∧
    (∀ eps t c2, records o c = (Except.ok eps, t, c2) →
      c2 = updateReadRecords eps) := by
  constructor
  · intro e t c2 h
    cases ho : o [] Call.search with
    | transportErr m =>
      simp only [records, ho, Prod.mk.injEq] at h
      exact h.2.2.symm
    | resp r =>
      simp only [records, ho] at h
      split at h
      · simp only [Prod.mk.injEq] at h
        exact h.2.2.symm
      · split at h
        · simp only [Prod.mk.injEq] at h
          exact h.2.2.symm
        · simp only [Prod.mk.injEq] at h
          exact absurd h.1 (by simp)
  · intro eps t c2 h
    cases ho : o [] Call.search with
    | transportErr m =>
      simp only [records, ho, Prod.mk.injEq] at h
      exact absurd h.1 (by simp)
    | resp r =>
      simp only [records, ho] at h
      split at h
      · simp only [Prod.mk.injEq] at h
        exact absurd h.1 (by simp)
      · split at h
        · simp only [Prod.mk.injEq] at h
          exact absurd h.1 (by simp)
        · simp only [Prod.mk.injEq, Except.ok.injEq] at h
          rw [h.2.2.symm, h.1]

/-! ## Concrete fixtures for witnesses and counterexamples. -/

/-- A server that always reports success with the expected result strings. -/
def okOracle : Oracle := fun _ call =>
  match call with
  | Call.delOverride _ => .resp { status := 200, body := { asOpResult := some "deleted" } }
  | Call.addOverride _ => .resp { status := 200, body := { asOpResult := some "saved" } }
  | Call.reconfigure => .resp { status := 200, body := { asOpResult := some "" } }
  | Call.search => .resp { status := 200, body := { asSearchRows := some [] } }

/-- A server that always responds 500 with an unparsable body. -/
def failOracle : Oracle := fun _ _ => .resp { status := 500, body := {} }

/-- An unreachable server: every request gets a transport error. -/
def downOracle : Oracle := fun _ _ => .transportErr "connection refused"

/-- A server that responds 200 with a body parsable as neither shape. -/
def badBodyOracle : Oracle := fun _ _ => .resp { status := 200, body := {} }

def epA : Endpoint := { dnsName := "create.me", targets := ["1.2.3.4"], recordType := "A" }

def epDel : Endpoint :=
  { dnsName := "delete.this", targets := ["5.6.7.8"], recordType := "A",
    setIdentifier := "uuid-1" }

def recA : Record :=
  { hostname := "create", domain := "me", rr := "A", server := "1.2.3.4",
    enabled := "1", description := "" }

/-- C8 counterexample: a transport-level error from the HTTP request is
not testable as `RequestFailed` — `createTarget` against an unreachable
server yields the wrapped transport error, on which the `RequestFailed`
test is false, contradicting the claim that transport errors yield the
same error kind as non-2xx statuses. -/
theorem transport_error_not_requestFailed_cex :
    (createTarget downOracle [] recA).1 =
      Except.error (GoErr.wrap "create http do" (GoErr.external "connection refused")) ∧
    isRequestFailed
      (GoErr.wrap "create http do" (GoErr.external "connection refused")) = false := by
  exact ⟨rfl, by decide⟩

/-- C8 (amended): for every remote operation (read, create, delete,
reconfigure), a transport-level error from performing the HTTP request is
returned wrapped around the transport error itself and is not testable as
`RequestFailed`; `RequestFailed` is produced by a non-2xx response
status. -/
theorem transport_and_status_errors (o : Oracle) (t : List Call) (c : Cache)
    (host : Record) (ep : Endpoint) (m : String) :
    (o t (Call.addOverride host) = DoResult.transportErr m →
      (createTarget o t host).1 =
        Except.error (GoErr.wrap "create http do" (GoErr.external m)) ∧
      isRequestFailed (GoErr.wrap "create http do" (GoErr.external m)) = false) ∧
    (o t (Call.delOverride ep.setIdentifier) = DoResult.transportErr m →
      (deleteEndpoint o t ep).1 =
        Except.error (GoErr.wrap "delete http do" (GoErr.external m)) ∧
      isRequestFailed (GoErr.wrap "delete http do" (GoErr.external m)) = false) ∧
    (o t Call.reconfigure = DoResult.transportErr m →
      (reconfigure o t).1 =
        Except.error (GoErr.wrap "reconfigure" (GoErr.external m)) ∧
      isRequestFailed (GoErr.wrap "reconfigure" (GoErr.external m)) = false) ∧
    (o [] Call.search = DoResult.transportErr m →
      (records o c).1 =
        Except.error (GoErr.wrap "records response" (GoErr.external m)) ∧
      isRequestFailed (GoErr.wrap "records response" (GoErr.external m)) = false) ∧
    (∀ r, o t (Call.addOverride host) = DoResult.resp r → r.status ≠ 200 →
      (createTarget o t host).1 =
        Except.error (GoErr.wrap "response status" GoErr.requestFailed) ∧
      isRequestFailed (GoErr.wrap "response status" GoErr.requestFailed) = true) ∧
    (∀ r, o t (Call.delOverride ep.setIdentifier) = DoResult.resp r → r.status ≠ 200 →
      (deleteEndpoint o t ep).1 =
        Except.error (GoErr.wrap "response status" GoErr.requestFailed)) ∧
    (∀ r, o t Call.reconfigure = DoResult.resp r → r.status ≠ 200 →
      (reconfigure o t).1 =
        Except.error (GoErr.wrap "response status" GoErr.requestFailed)) ∧
    (∀ r, o [] Call.search = DoResult.resp r → r.status ≠ 200 →
      (records o c).1 = Except.error (GoErr.wrap "status" GoErr.requestFailed)) := by
  refine ⟨?_, ?_, ?_, ?_, ?_, ?_, ?_, ?_⟩
  · intro h
    refine ⟨?_, by rw [isRequestFailed_wrap, isRequestFailed_external]⟩
    simp [createTarget, h]
  · intro h
    refine ⟨?_, by rw [isRequestFailed_wrap, isRequestFailed_external]⟩
    simp [deleteEndpoint, h]
  · intro h
    refine ⟨?_, by rw [isRequestFailed_wrap, isRequestFailed_external]⟩
    simp [reconfigure, h]
  · intro h
    refine ⟨?_, by rw [isRequestFailed_wrap, isRequestFailed_external]⟩
    simp [records, h]
  · intro r h hs
    refine ⟨?_, by decide⟩
    simp only [createTarget, h]
    rw [if_pos (by simpa [bne_iff_ne] using hs)]
  · intro r h hs
    simp only [deleteEndpoint, h]
    rw [if_pos (by simpa [bne_iff_ne] using hs)]
  · intro r h hs
    simp only [reconfigure, h]
    rw [if_pos (by simpa [bne_iff_ne] using hs)]
  · intro r h hs
    simp only [records, h]
    rw [if_pos (by simpa [bne_iff_ne] using hs)]

/-- C8 witness: the amended theorem applied to the unreachable server for
the transport half and to the always-500 server for the status half. -/
theorem transport_and_status_errors_witness :
    (downOracle [] (Call.addOverride recA) = DoResult.transportErr "connection refused" ∧
      (createTarget downOracle [] recA).1 =
        Except.error (GoErr.wrap "create http do" (GoErr.external "connection refused")) ∧
      isRequestFailed
        (GoErr.wrap "create http do" (GoErr.external "connection refused")) = false) ∧
    (failOracle [] Call.search = DoResult.resp { status := 500, body := {} } ∧
      (records failOracle []).1 =
        Except.error (GoErr.wrap "status" GoErr.requestFailed)) :=
  ⟨⟨rfl, (transport_and_status_errors downOracle [] [] recA epDel "connection refused").1 rfl⟩,
   ⟨rfl, (transport_and_status_errors failOracle [] [] recA epDel "x").2.2.2.2.2.2.2
     { status := 500, body := {} } rfl (by decide)⟩⟩

/-! ## Framing lemmas for the description codec. -/

theorem replaceFirstList_append (p s : List Char) :
    replaceFirstList (p ++ s) p [] = s := by
  unfold replaceFirstList
  rw [if_pos (List.isPrefixOf_iff_prefix.mpr (List.prefix_append p s))]
  simp [List.drop_left]

theorem trimSpaceList_space_cons (l : List Char) :
    trimSpaceList (' ' :: l) = trimSpaceList l := by
  simp [trimSpaceList, List.dropWhile_cons, goIsSpace]

theorem string_mk_data (s : String) : String.mk s.data = s := by
  cases s
  rfl

/-- C7 counterexample: a description consisting of the marker immediately
followed by base64, with no separating space, still yields synthesized
ownership records — it does not carry the prefix-plus-space framing the
claim requires, yet decoding is attempted and succeeds. -/
theorem decode_without_space_cex :
    goHasPrefixB ("Managed by K8s external-dnsQUJD" : String)
      (descriptionMark ++ " ") = false ∧
    endpointsFromBase64Description "host.domain" "Managed by K8s external-dnsQUJD" =
      some [{ dnsName := "host.domain", targets := ["ABC"], recordType := "TXT" },
            { dnsName := "a-host.domain", targets := ["ABC"], recordType := "TXT" }] := by
  exact ⟨by decide, by decide⟩

/-- C7 (amended): ownership decoding is attempted exactly when the
description starts with the fixed marker — no separating space is
required; the remainder after stripping the marker's first occurrence is
whitespace-trimmed and base64-decoded.  A description that does not start
with the marker never yields synthesized ownership records. -/
theorem description_decode_framing :
    (∀ name desc, goHasPrefixB desc descriptionMark = false →
      endpointsFromBase64Description name desc = none) ∧
    (∀ name b64 bs, goBase64Decode b64 = some bs → goTrimSpace b64 = b64 →
      endpointsFromBase64Description name (descriptionMark ++ b64) =
        some [{ dnsName := name, targets := [stringOfBytes bs], recordType := "TXT" },
              { dnsName := "a-" ++ name, targets := [stringOfBytes bs],
                recordType := "TXT" }]) := by
  constructor
  · intro name desc h
    simp [endpointsFromBase64Description, h]
  · intro name b64 bs hdec htrim
    have hpre : goHasPrefixB (descriptionMark ++ b64) descriptionMark = true := by
      simp [goHasPrefixB, String.data_append, List.isPrefixOf_iff_prefix,
        List.prefix_append]
    have hrep : goReplaceFirst (descriptionMark ++ b64) descriptionMark "" = b64 := by
      apply String.ext
      show replaceFirstList (descriptionMark ++ b64).data descriptionMark.data [] = b64.data
      rw [String.data_append, replaceFirstList_append]
    simp only [endpointsFromBase64Description, hpre, Bool.not_true, Bool.false_eq_true,
      if_false, hrep, htrim, hdec]

/-- C7 witness: the amended theorem applied to a non-matching description
and to a marker-plus-base64 description (still without the space). -/
theorem description_decode_framing_witness :
    (goHasPrefixB "something else" descriptionMark = false ∧
      endpointsFromBase64Description "host.domain" "something else" = none) ∧
    (goBase64Decode "QUJD" = some [65, 66, 67] ∧ goTrimSpace "QUJD" = "QUJD" ∧
      endpointsFromBase64Description "host.domain" (descriptionMark ++ "QUJD") =
        some [{ dnsName := "host.domain", targets := [stringOfBytes [65, 66, 67]],
                recordType := "TXT" },
              { dnsName := "a-host.domain", targets := [stringOfBytes [65, 66, 67]],
                recordType := "TXT" }]) :=
  ⟨⟨by decide, description_decode_framing.1 "host.domain" "something else" (by decide)⟩,
   ⟨by decide, by decide,
    description_decode_framing.2 "host.domain" "QUJD" [65, 66, 67] (by decide) (by decide)⟩⟩

/-- C2: decoding a remote record with an empty description emits exactly
one endpoint (no ownership synthesis); decoding one whose description is
the fixed marker, the separating space, and valid base64 emits exactly
three: the address endpoint (name `hostname.domain`, set-identifier the
remote id, kind the first space-delimited token of the rr string) plus two
TXT ownership endpoints carrying the base64-decoded value as target, one
under the unmodified name and one under `"a-" + name`, both with no
set-identifier. -/
theorem toEndpoints_record_counts (row : Record) :
    (row.description = "" →
      toEndpoints [row] =
        [{ dnsName := row.hostname ++ "." ++ row.domain, targets := [row.server],
           recordType := (goSplitSpace row.rr).headD "", setIdentifier := row.uuid }]) ∧
    (∀ b64 bs, row.description = descriptionMark ++ " " ++ b64 →
      goBase64Decode b64 = some bs → goTrimSpace b64 = b64 →
      toEndpoints [row] =
        [{ dnsName := row.hostname ++ "." ++ row.domain, targets := [row.server],
           recordType := (goSplitSpace row.rr).headD "", setIdentifier := row.uuid,
           labels := [("description", row.description)] },
         { dnsName := row.hostname ++ "." ++ row.domain, targets := [stringOfBytes bs],
           recordType := "TXT" },
         { dnsName := "a-" ++ (row.hostname ++ "." ++ row.domain),
           targets := [stringOfBytes bs], recordType := "TXT" }]) := by
  constructor
  · intro h
    simp [toEndpoints, rowToEndpoints, h, endpointsFromBase64Description,
      (show goHasPrefixB "" descriptionMark = false by decide)]
  · intro b64 bs hdesc hdec htrim
    have hdata : row.description.data = descriptionMark.data ++ (' ' :: b64.data) := by
      rw [hdesc]
      simp [String.data_append, List.append_assoc,
        (show (" " : String).data = [' '] from rfl)]
    have hpre : goHasPrefixB row.description descriptionMark = true := by
      rw [goHasPrefixB, hdata]
      exact List.isPrefixOf_iff_prefix.mpr (List.prefix_append _ _)
    have hstripped : goReplaceFirst row.description descriptionMark "" =
        String.mk (' ' :: b64.data) := by
      apply String.ext
      show replaceFirstList row.description.data descriptionMark.data [] =
        ' ' :: b64.data
      rw [hdata, replaceFirstList_append]
    have htrim2 : goTrimSpace (String.mk (' ' :: b64.data)) = b64 := by
      apply String.ext
      show trimSpaceList (' ' :: b64.data) = b64.data
      rw [trimSpaceList_space_cons]
      exact congrArg String.data htrim
    have hne : (row.description != "") = true := by
      rw [bne_iff_ne]
      intro h0
      rw [h0] at hpre
      exact absurd hpre (by decide)
    have hsynth : endpointsFromBase64Description
        (row.hostname ++ "." ++ row.domain) row.description =
        some [{ dnsName := row.hostname ++ "." ++ row.domain,
                targets := [stringOfBytes bs], recordType := "TXT" },
              { dnsName := "a-" ++ (row.hostname ++ "." ++ row.domain),
                targets := [stringOfBytes bs], recordType := "TXT" }] := by
      simp only [endpointsFromBase64Description, hpre, Bool.not_true,
        Bool.false_eq_true, if_false, hstripped, htrim2, hdec]
    simp only [toEndpoints, List.flatMap_cons, List.flatMap_nil, List.append_nil,
      rowToEndpoints, hsynth, hne, if_true]

def rowW : Record :=
  { uuid := "some-uuid", hostname := "foo", domain := "example.domain",
    rr := "A (Ipv4 Address)", server := "10.0.0.4", enabled := "1",
    description := "Managed by K8s external-dns QUJD" }

def rowEmptyDesc : Record :=
  { uuid := "some-uuid", hostname := "foo", domain := "example.domain",
    rr := "A (Ipv4 Address)", server := "10.0.0.4", enabled := "1",
    description := "" }

/-- C2 witness: the counting theorem applied to a concrete row carrying
base64 `"QUJD"` (decoding to `"ABC"`) and to a concrete row with an empty
description. -/
theorem toEndpoints_record_counts_witness :
    (rowW.description = descriptionMark ++ " " ++ "QUJD" ∧
      goBase64Decode "QUJD" = some [65, 66, 67] ∧ goTrimSpace "QUJD" = "QUJD" ∧
      toEndpoints [rowW] =
        [{ dnsName := rowW.hostname ++ "." ++ rowW.domain, targets := [rowW.server],
           recordType := (goSplitSpace rowW.rr).headD "", setIdentifier := rowW.uuid,
           labels := [("description", rowW.description)] },
         { dnsName := rowW.hostname ++ "." ++ rowW.domain,
           targets := [stringOfBytes [65, 66, 67]], recordType := "TXT" },
         { dnsName := "a-" ++ (rowW.hostname ++ "." ++ rowW.domain),
           targets := [stringOfBytes [65, 66, 67]], recordType := "TXT" }]) ∧
    (rowEmptyDesc.description = "" ∧
      toEndpoints [rowEmptyDesc] =
        [{ dnsName := rowEmptyDesc.hostname ++ "." ++ rowEmptyDesc.domain,
           targets := [rowEmptyDesc.server],
           recordType := (goSplitSpace rowEmptyDesc.rr).headD "",
           setIdentifier := rowEmptyDesc.uuid }]) :=
  ⟨⟨by decide, by decide, by decide,
    (toEndpoints_record_counts rowW).2 "QUJD" [65, 66, 67] (by decide) (by decide)
      (by decide)⟩,
   ⟨rfl, (toEndpoints_record_counts rowEmptyDesc).1 rfl⟩⟩

/-! ## Trace lemmas: which remote calls each phase issues. -/

theorem deleteEndpoint_trace (o : Oracle) (t : List Call) (ep : Endpoint) :
    (deleteEndpoint o t ep).2 = t ++ [Call.delOverride ep.setIdentifier] := by
  cases ho : o t (Call.delOverride ep.setIdentifier) <;>
    simp [deleteEndpoint, ho, apply_ite]

theorem createTarget_trace (o : Oracle) (t : List Call) (host : Record) :
    (createTarget o t host).2 = t ++ [Call.addOverride host] := by
  cases ho : o t (Call.addOverride host) <;>
    simp [createTarget, ho, apply_ite]

theorem deleteEndpoints_trace (o : Oracle) (l : List Endpoint) :
    ∀ t, ∃ ext, (deleteEndpoints o t l).2 = t ++ ext ∧
      ∀ cl ∈ ext, ∃ id, cl = Call.delOverride id := by
  induction l with
  | nil =>
    intro t
    exact ⟨[], by simp [deleteEndpoints]⟩
  | cons ep rest ih =>
    intro t
    have htr := deleteEndpoint_trace o t ep
    rcases hde : deleteEndpoint o t ep with ⟨res, t2⟩
    rw [hde] at htr
    cases res with
    | error e =>
      refine ⟨[Call.delOverride ep.setIdentifier], ?_, ?_⟩
      · simp [deleteEndpoints, hde, htr]
      · intro cl hcl
        simp at hcl
        exact ⟨ep.setIdentifier, hcl⟩
    | ok u =>
      have ht2 : t2 = t ++ [Call.delOverride ep.setIdentifier] := htr
      obtain ⟨ext, hext, hall⟩ := ih t2
      rw [ht2] at hext
      refine ⟨Call.delOverride ep.setIdentifier :: ext, ?_, ?_⟩
      · simp only [deleteEndpoints, hde, ht2, hext, List.append_assoc,
          List.singleton_append]
      · intro cl hcl
        rcases List.mem_cons.mp hcl with h | h
        · exact ⟨ep.setIdentifier, h⟩
        · exact hall cl h

theorem createTargets_trace (o : Oracle) (rs : List Record) :
    ∀ t, ∃ ext, (createTargets o t rs).2 = t ++ ext ∧
      ∀ cl ∈ ext, ∃ h, cl = Call.addOverride h := by
  induction rs with
  | nil =>
    intro t
    exact ⟨[], by simp [createTargets]⟩
  | cons r rest ih =>
    intro t
    have htr := createTarget_trace o t r
    rcases hct : createTarget o t r with ⟨res, t2⟩
    rw [hct] at htr
    cases res with
    | error e =>
      refine ⟨[Call.addOverride r], ?_, ?_⟩
      · simp [createTargets, hct, htr]
      · intro cl hcl
        simp at hcl
        exact ⟨r, hcl⟩
    | ok u =>
      have ht2 : t2 = t ++ [Call.addOverride r] := htr
      obtain ⟨ext, hext, hall⟩ := ih t2
      rw [ht2] at hext
      refine ⟨Call.addOverride r :: ext, ?_, ?_⟩
      · simp only [createTargets, hct, ht2, hext, List.append_assoc,
          List.singleton_append]
      · intro cl hcl
        rcases List.mem_cons.mp hcl with h | h
        · exact ⟨r, h⟩
        · exact hall cl h

theorem createEndpoints_trace (o : Oracle) (c : Cache) (l : List Endpoint) :
    ∀ t, ∃ ext, (createEndpoints o t c l).2 = t ++ ext ∧
      ∀ cl ∈ ext, ∃ h, cl = Call.addOverride h := by
  induction l with
  | nil =>
    intro t
    exact ⟨[], by simp [createEndpoints]⟩
  | cons ep rest ih =>
    intro t
    by_cases hsup : supportedType ep.recordType
    · obtain ⟨ext1, hext1, hall1⟩ := createTargets_trace o (createRequestJSON c ep) t
      rcases hce : createEndpoint o t c ep with ⟨res, t2⟩
      have ht2 : t2 = t ++ ext1 := by
        have : (createEndpoint o t c ep).2 = t ++ ext1 := hext1
        rw [hce] at this
        exact this
      cases res with
      | error e =>
        refine ⟨ext1, ?_, hall1⟩
        simp [createEndpoints, hsup, hce, ht2]
      | ok u =>
        obtain ⟨ext2, hext2, hall2⟩ := ih t2
        refine ⟨ext1 ++ ext2, ?_, ?_⟩
        · simp only [createEndpoints, hsup, if_true, hce]
          rw [hext2, ht2, List.append_assoc]
        · intro cl hcl
          rcases List.mem_append.mp hcl with h | h
          · exact hall1 cl h
          · exact hall2 cl h
    · obtain ⟨ext, hext, hall⟩ := ih t
      refine ⟨ext, ?_, hall⟩
      simp [createEndpoints, hsup, hext]

def epTxtDel : Endpoint :=
  { dnsName := "foo.bar", targets := ["v"], recordType := "TXT",
    setIdentifier := "uuid-2" }

/-- C3 counterexample: a TXT record in the deletion list is not skipped —
`ApplyChanges` issues a `delHostOverride` call for it (the deletion path
has no record-type filter), contradicting the claim that non-address
kinds in the deletion list produce no remote call. -/
theorem txt_delete_issues_call_cex :
    supportedType epTxtDel.recordType = false ∧
    (applyChanges okOracle [] { delete := [epTxtDel] }).2.1 =
      [Call.delOverride "uuid-2", Call.reconfigure] := by
  exact ⟨by decide, by decide⟩

/-- C3 (amended): only records whose kind is an address family (A or
AAAA) cause a remote create call — any other kind in the creation or
update-new list is skipped, with no remote call and no error, exactly as
if it had been filtered out; the deletion path, in contrast, issues a
`delHostOverride` call for every record in the deletion and update-old
lists regardless of its kind. -/
theorem address_family_filter :
    (∀ (o : Oracle) (t : List Call) (c : Cache) (eps : List Endpoint),
      createEndpoints o t c eps =
        createEndpoints o t c (eps.filter (fun ep => supportedType ep.recordType))) ∧
    (∀ (o : Oracle) (t : List Call) (ep : Endpoint) (rest : List Endpoint),
      ∃ t2, (deleteEndpoints o t (ep :: rest)).2 =
        t ++ Call.delOverride ep.setIdentifier :: t2) := by
  constructor
  · intro o t c eps
    induction eps generalizing t with
    | nil => rfl
    | cons ep rest ih =>
      by_cases hsup : supportedType ep.recordType
      · simp only [List.filter_cons, hsup, if_true]
        simp only [createEndpoints, hsup, if_true]
        rcases hce : createEndpoint o t c ep with ⟨res, t2⟩
        cases res with
        | error e => rfl
        | ok u => exact ih t2
      · simp only [List.filter_cons, hsup]
        simp only [createEndpoints, hsup, Bool.false_eq_true, if_false]
        exact ih t
  · intro o t ep rest
    have htr := deleteEndpoint_trace o t ep
    rcases hde : deleteEndpoint o t ep with ⟨res, t2⟩
    rw [hde] at htr
    have ht2 : t2 = t ++ [Call.delOverride ep.setIdentifier] := htr
    cases res with
    | error e =>
      refine ⟨[], ?_⟩
      simp [deleteEndpoints, hde, ht2]
    | ok u =>
      obtain ⟨ext, hext, _⟩ := deleteEndpoints_trace o rest t2
      rw [ht2] at hext
      refine ⟨ext, ?_⟩
      simp only [deleteEndpoints, hde, ht2, hext, List.append_assoc,
        List.singleton_append]

/-! ## Split/join lemmas (for the encode/decode round trip of names). -/

theorem splitChar_ne_nil (sep : Char) (l : List Char) : splitChar sep l ≠ [] := by
  cases l with
  | nil => simp [splitChar]
  | cons c rest =>
    simp only [splitChar]
    split <;> simp

theorem splitChar_pieces (sep : Char) (l : List Char) :
    ∀ p ∈ splitChar sep l, sep ∉ p := by
  induction l with
  | nil =>
    intro p hp
    simp [splitChar] at hp
    simp [hp]
  | cons c rest ih =>
    intro p hp
    simp only [splitChar] at hp
    by_cases hc : c == sep
    · rw [if_pos hc] at hp
      rcases List.mem_cons.mp hp with h | h
      · simp [h]
      · exact ih p h
    · rw [if_neg hc] at hp
      rcases List.mem_cons.mp hp with h | h
      · subst h
        intro hmem
        rcases List.mem_cons.mp hmem with h1 | h1
        · exact hc (by simp [h1])
        · rcases hsr : splitChar sep rest with _ | ⟨h0, tl⟩
          · exact splitChar_ne_nil sep rest hsr
          · rw [hsr] at h1
            exact ih h0 (by simp [hsr]) (by simpa using h1)
      · rcases hsr : splitChar sep rest with _ | ⟨h0, tl⟩
        · exact absurd hsr (splitChar_ne_nil sep rest)
        · rw [hsr] at h
          exact ih p (by simp [hsr, List.mem_cons.mpr (Or.inr (by simpa using h))])

theorem splitChar_single (sep : Char) (h : List Char) (hs : sep ∉ h) :
    splitChar sep h = [h] := by
  induction h with
  | nil => rfl
  | cons c rest ih =>
    have hc : ¬(c == sep) = true := by
      simp only [beq_iff_eq]
      intro hcc
      exact hs (by simp [hcc])
    have hrest : sep ∉ rest := fun hmem => hs (List.mem_cons.mpr (Or.inr hmem))
    simp only [splitChar]
    rw [ih hrest]
    simp [hc]

theorem splitChar_append_sep (sep : Char) (h rest : List Char) (hs : sep ∉ h) :
    splitChar sep (h ++ sep :: rest) = h :: splitChar sep rest := by
  induction h with
  | nil => simp [splitChar]
  | cons c h2 ih =>
    have hc : ¬(c == sep) = true := by
      simp only [beq_iff_eq]
      intro hcc
      exact hs (by simp [hcc])
    have h2s : sep ∉ h2 := fun hmem => hs (List.mem_cons.mpr (Or.inr hmem))
    simp only [List.cons_append, splitChar, List.append_eq]
    rw [ih h2s]
    simp [hc]

theorem splitChar_joinChar (sep : Char) (ps : List (List Char))
    (hall : ∀ p ∈ ps, sep ∉ p) (hne : ps ≠ []) :
    splitChar sep (joinChar sep ps) = ps := by
  induction ps with
  | nil => exact absurd rfl hne
  | cons x rest ih =>
    cases rest with
    | nil =>
      show splitChar sep (joinChar sep [x]) = [x]
      exact splitChar_single sep x (hall x (by simp))
    | cons y t =>
      show splitChar sep (x ++ sep :: joinChar sep (y :: t)) = x :: y :: t
      rw [splitChar_append_sep sep x _ (hall x (by simp))]
      rw [ih (fun p hp => hall p (List.mem_cons.mpr (Or.inr hp))) (by simp)]

theorem appendToDescription_ne_empty (s : String) : appendToDescription s ≠ "" := by
  intro h
  have h2 := congrArg String.data h
  simp [appendToDescription, String.data_append,
    (show (" " : String).data = [' '] from rfl)] at h2

theorem endpointsFromBase64Description_txt (n d : String) (l : List Endpoint)
    (h : endpointsFromBase64Description n d = some l) :
    ∀ e ∈ l, e.recordType = "TXT" := by
  unfold endpointsFromBase64Description at h
  split at h
  · exact absurd h (by simp)
  · rcases hdec : goBase64Decode (goTrimSpace (goReplaceFirst d descriptionMark ""))
      with _ | decoded <;> simp only [hdec] at h
    · exact absurd h (by simp)
    · rw [Option.some.injEq] at h
      subst h
      intro e he
      rcases List.mem_cons.mp he with h1 | h1
      · rw [h1]
      · rw [List.mem_singleton.mp h1]

/-- C4: encoding an address-kind endpoint (`createRequestJSON`) and then
decoding the resulting remote record (`ToEndpoints`) reproduces the same
hostname (first dot-separated segment of the name), domain (remaining
segments rejoined with `"."`), target value, and record kind; any
ownership records synthesized from the description come after the address
record, never replacing it. -/
theorem encode_decode_round_trip (c : Cache) (ep : Endpoint) (i : Nat) (tgt : String)
    (hty : ep.recordType = "A" ∨ ep.recordType = "AAAA")
    (htgt : ep.targets[i]? = some tgt) :
    ∃ r, (createRequestJSON c ep)[i]? = some r ∧
      r.hostname = (goSplitDots ep.dnsName).headD "" ∧
      r.domain = goJoinDots ((goSplitDots ep.dnsName).drop 1) ∧
      r.server = tgt ∧
      r.rr = ep.recordType ∧
      ∃ rest, toEndpoints [r] =
        { dnsName := r.hostname ++ "." ++ r.domain, targets := [tgt],
          recordType := ep.recordType, setIdentifier := "",
          labels := [("description", r.description)] } :: rest ∧
        (goSplitDots (r.hostname ++ "." ++ r.domain)).headD "" = r.hostname ∧
        goJoinDots ((goSplitDots (r.hostname ++ "." ++ r.domain)).drop 1) = r.domain ∧
        (∀ e2 ∈ rest, e2.recordType = "TXT") := by
  refine ⟨{ enabled := "1", hostname := (goSplitDots ep.dnsName).headD "",
            domain := goJoinDots ((goSplitDots ep.dnsName).drop 1), server := tgt,
            rr := ep.recordType,
            description := createDescription c ep.dnsName }, ?_, rfl, rfl, rfl, rfl, ?_⟩
  · simp [createRequestJSON, List.getElem?_map, htgt]
  · rcases hsp : splitChar '.' ep.dnsName.data with _ | ⟨p, ps⟩
    · exact absurd hsp (splitChar_ne_nil _ _)
    have hhn : (goSplitDots ep.dnsName).headD "" = String.mk p := by
      simp [goSplitDots, hsp]
    have hhndata : ((goSplitDots ep.dnsName).headD "").data = p := by
      rw [hhn]
    have hdomdata : (goJoinDots ((goSplitDots ep.dnsName).drop 1)).data =
        joinChar '.' ps := by
      show (goJoinDots (List.drop 1
        (List.map String.mk (splitChar '.' ep.dnsName.data)))).data = joinChar '.' ps
      rw [hsp, List.map_cons, List.drop_one, List.tail_cons]
      show joinChar '.' (List.map String.data (List.map String.mk ps)) = joinChar '.' ps
      rw [List.map_map, (show String.data ∘ String.mk = id from rfl), List.map_id]
    have hnamedata :
        ((goSplitDots ep.dnsName).headD "" ++ "." ++
          goJoinDots ((goSplitDots ep.dnsName).drop 1)).data =
        p ++ '.' :: joinChar '.' ps := by
      rw [String.data_append, String.data_append, hhndata, hdomdata,
        (show ("." : String).data = ['.'] from rfl), List.append_assoc,
        List.singleton_append]
    have hpnod : '.' ∉ p := splitChar_pieces '.' ep.dnsName.data p (by rw [hsp]; simp)
    have hsplit2 : splitChar '.'
        ((goSplitDots ep.dnsName).headD "" ++ "." ++
          goJoinDots ((goSplitDots ep.dnsName).drop 1)).data =
        p :: splitChar '.' (joinChar '.' ps) := by
      rw [hnamedata]
      exact splitChar_append_sep '.' p _ hpnod
    have hrejoin : joinChar '.' (splitChar '.' (joinChar '.' ps)) = joinChar '.' ps := by
      cases ps with
      | nil => rfl
      | cons q qs =>
        rw [splitChar_joinChar '.' (q :: qs) ?_ (by simp)]
        intro piece hpiece
        exact splitChar_pieces '.' ep.dnsName.data piece (by rw [hsp]; simp [hpiece])
    have hresplitHead :
        (goSplitDots ((goSplitDots ep.dnsName).headD "" ++ "." ++
          goJoinDots ((goSplitDots ep.dnsName).drop 1))).headD "" =
        (goSplitDots ep.dnsName).headD "" := by
      show (List.map String.mk (splitChar '.'
          ((goSplitDots ep.dnsName).headD "" ++ "." ++
            goJoinDots ((goSplitDots ep.dnsName).drop 1)).data)).headD "" =
        (goSplitDots ep.dnsName).headD ""
      rw [hsplit2, List.map_cons, List.headD_cons, hhn]
    have hresplitDom :
        goJoinDots ((goSplitDots ((goSplitDots ep.dnsName).headD "" ++ "." ++
          goJoinDots ((goSplitDots ep.dnsName).drop 1))).drop 1) =
        goJoinDots ((goSplitDots ep.dnsName).drop 1) := by
      show goJoinDots (List.drop 1 (List.map String.mk (splitChar '.'
          ((goSplitDots ep.dnsName).headD "" ++ "." ++
            goJoinDots ((goSplitDots ep.dnsName).drop 1)).data))) =
        goJoinDots ((goSplitDots ep.dnsName).drop 1)
      rw [hsplit2, List.map_cons, List.drop_one, List.tail_cons]
      apply String.ext
      rw [hdomdata]
      show joinChar '.' (List.map String.data (List.map String.mk
        (splitChar '.' (joinChar '.' ps)))) = joinChar '.' ps
      rw [List.map_map, (show String.data ∘ String.mk = id from rfl), List.map_id]
      exact hrejoin
    have hrt : (goSplitSpace ep.recordType).headD "" = ep.recordType := by
      rcases hty with h | h <;> rw [h] <;> decide
    have hne : (createDescription c ep.dnsName != "") = true :=
      bne_iff_ne.mpr (appendToDescription_ne_empty _)
    rcases hsyn : endpointsFromBase64Description
        ((goSplitDots ep.dnsName).headD "" ++ "." ++
          goJoinDots ((goSplitDots ep.dnsName).drop 1))
        (createDescription c ep.dnsName) with _ | txts
    · refine ⟨[], ?_, hresplitHead, hresplitDom, by simp⟩
      simp only [toEndpoints, List.flatMap_cons, List.flatMap_nil, List.append_nil,
        rowToEndpoints, hrt, hne, if_true, hsyn]
    · refine ⟨txts, ?_, hresplitHead, hresplitDom,
        endpointsFromBase64Description_txt _ _ _ hsyn⟩
      simp only [toEndpoints, List.flatMap_cons, List.flatMap_nil, List.append_nil,
        rowToEndpoints, hrt, hne, if_true, hsyn]

def epA4 : Endpoint :=
  { dnsName := "foo.example.domain", targets := ["10.0.0.4"], recordType := "A" }

/-- C4 witness: the round-trip theorem applied to a concrete A record
`foo.example.domain → 10.0.0.4` with an empty ownership cache. -/
theorem encode_decode_round_trip_witness :
    (epA4.recordType = "A" ∨ epA4.recordType = "AAAA") ∧
    epA4.targets[0]? = some "10.0.0.4" ∧
    (∃ r, (createRequestJSON [] epA4)[0]? = some r ∧
      r.hostname = (goSplitDots epA4.dnsName).headD "" ∧
      r.domain = goJoinDots ((goSplitDots epA4.dnsName).drop 1) ∧
      r.server = "10.0.0.4" ∧
      r.rr = epA4.recordType ∧
      ∃ rest, toEndpoints [r] =
        { dnsName := r.hostname ++ "." ++ r.domain, targets := ["10.0.0.4"],
          recordType := epA4.recordType, setIdentifier := "",
          labels := [("description", r.description)] } :: rest ∧
        (goSplitDots (r.hostname ++ "." ++ r.domain)).headD "" = r.hostname ∧
        goJoinDots ((goSplitDots (r.hostname ++ "." ++ r.domain)).drop 1) = r.domain ∧
        (∀ e2 ∈ rest, e2.recordType = "TXT")) :=
  ⟨Or.inl rfl, rfl,
   encode_decode_round_trip [] epA4 0 "10.0.0.4" (Or.inl rfl) rfl⟩

/-! ## Error-shape lemmas: the errors each phase can produce. -/

theorem checkResponse_error (b : Body) (want : String) (e : GoErr)
    (h : checkResponse b want = .error e) :
    e = GoErr.wrap "response" GoErr.requestFailed := by
  unfold checkResponse at h
  rcases hop : b.asOpResult with _ | r <;> simp only [hop] at h
  · rw [Except.error.injEq] at h
    exact h.symm
  · split at h
    · exact absurd h (by simp)
    · rw [Except.error.injEq] at h
      exact h.symm

theorem deleteEndpoint_error_cases (o : Oracle) (t : List Call) (ep : Endpoint)
    (e : GoErr) (h : (deleteEndpoint o t ep).1 = .error e) :
    (∃ m, e = GoErr.wrap "delete http do" (GoErr.external m)) ∨
    e = GoErr.wrap "response status" GoErr.requestFailed ∨
    e = GoErr.wrap "response" GoErr.requestFailed := by
  cases ho : o t (Call.delOverride ep.setIdentifier) with
  | transportErr m =>
    simp only [deleteEndpoint, ho] at h
    rw [Except.error.injEq] at h
    exact Or.inl ⟨m, h.symm⟩
  | resp r =>
    by_cases hs : (r.status != 200) = true
    · simp only [deleteEndpoint, ho, hs, if_true] at h
      rw [Except.error.injEq] at h
      exact Or.inr (Or.inl h.symm)
    · have hs2 : (r.status != 200) = false := by simpa using hs
      simp only [deleteEndpoint, ho, hs2, Bool.false_eq_true, if_false] at h
      exact Or.inr (Or.inr (checkResponse_error _ _ _ h))

theorem createTarget_error_cases (o : Oracle) (t : List Call) (host : Record)
    (e : GoErr) (h : (createTarget o t host).1 = .error e) :
    (∃ m, e = GoErr.wrap "create http do" (GoErr.external m)) ∨
    e = GoErr.wrap "response status" GoErr.requestFailed ∨
    e = GoErr.wrap "response" GoErr.requestFailed := by
  cases ho : o t (Call.addOverride host) with
  | transportErr m =>
    simp only [createTarget, ho] at h
    rw [Except.error.injEq] at h
    exact Or.inl ⟨m, h.symm⟩
  | resp r =>
    by_cases hs : (r.status != 200) = true
    · simp only [createTarget, ho, hs, if_true] at h
      rw [Except.error.injEq] at h
      exact Or.inr (Or.inl h.symm)
    · have hs2 : (r.status != 200) = false := by simpa using hs
      simp only [createTarget, ho, hs2, Bool.false_eq_true, if_false] at h
      exact Or.inr (Or.inr (checkResponse_error _ _ _ h))

theorem deleteEndpoints_error_cases (o : Oracle) (l : List Endpoint) :
    ∀ t e, (deleteEndpoints o t l).1 = .error e →
    ∃ ep ∈ l, ∃ e2, e = GoErr.wrap ep.dnsName e2 ∧
      ((∃ m, e2 = GoErr.wrap "delete http do" (GoErr.external m)) ∨
       e2 = GoErr.wrap "response status" GoErr.requestFailed ∨
       e2 = GoErr.wrap "response" GoErr.requestFailed) := by
  induction l with
  | nil =>
    intro t e h
    exact absurd h (by simp [deleteEndpoints])
  | cons ep rest ih =>
    intro t e h
    rcases hde : deleteEndpoint o t ep with ⟨res, t2⟩
    cases res with
    | error e1 =>
      simp only [deleteEndpoints, hde] at h
      rw [Except.error.injEq] at h
      refine ⟨ep, by simp, e1, h.symm, ?_⟩
      exact deleteEndpoint_error_cases o t ep e1 (congrArg Prod.fst hde)
    | ok u =>
      simp only [deleteEndpoints, hde] at h
      obtain ⟨ep2, hmem, e2, he2, hshape⟩ := ih t2 e h
      exact ⟨ep2, List.mem_cons.mpr (Or.inr hmem), e2, he2, hshape⟩

theorem createTargets_error_cases (o : Oracle) (rs : List Record) :
    ∀ t e, (createTargets o t rs).1 = .error e →
    (∃ m, e = GoErr.wrap "create http do" (GoErr.external m)) ∨
    e = GoErr.wrap "response status" GoErr.requestFailed ∨
    e = GoErr.wrap "response" GoErr.requestFailed := by
  induction rs with
  | nil =>
    intro t e h
    exact absurd h (by simp [createTargets])
  | cons r rest ih =>
    intro t e h
    rcases hct : createTarget o t r with ⟨res, t2⟩
    cases res with
    | error e1 =>
      simp only [createTargets, hct] at h
      rw [Except.error.injEq] at h
      rw [← h]
      exact createTarget_error_cases o t r e1 (congrArg Prod.fst hct)
    | ok u =>
      simp only [createTargets, hct] at h
      exact ih t2 e h

theorem createEndpoints_error_cases (o : Oracle) (c : Cache) (l : List Endpoint) :
    ∀ t e, (createEndpoints o t c l).1 = .error e →
    ∃ e2, e = GoErr.wrap "create endpoint" e2 ∧
      ((∃ m, e2 = GoErr.wrap "create http do" (GoErr.external m)) ∨
       e2 = GoErr.wrap "response status" GoErr.requestFailed ∨
       e2 = GoErr.wrap "response" GoErr.requestFailed) := by
  induction l with
  | nil =>
    intro t e h
    exact absurd h (by simp [createEndpoints])
  | cons ep rest ih =>
    intro t e h
    by_cases hsup : supportedType ep.recordType
    · rcases hce : createEndpoint o t c ep with ⟨res, t2⟩
      cases res with
      | error e1 =>
        simp only [createEndpoints, hsup, if_true, hce] at h
        rw [Except.error.injEq] at h
        refine ⟨e1, h.symm, ?_⟩
        exact createTargets_error_cases o (createRequestJSON c ep) t e1
          (congrArg Prod.fst hce)
      | ok u =>
        simp only [createEndpoints, hsup, if_true, hce] at h
        exact ih t2 e h
    · simp only [createEndpoints, hsup, Bool.false_eq_true, if_false] at h
      exact ih t e h

theorem deleteEndpoints_ok_trace (o : Oracle) (l : List Endpoint) :
    ∀ t t2, deleteEndpoints o t l = (.ok (), t2) →
    t2 = t ++ l.map (fun ep => Call.delOverride ep.setIdentifier) := by
  induction l with
  | nil =>
    intro t t2 h
    simp only [deleteEndpoints, Prod.mk.injEq] at h
    simp [h.2.symm]
  | cons ep rest ih =>
    intro t t2 h
    have htr := deleteEndpoint_trace o t ep
    rcases hde : deleteEndpoint o t ep with ⟨res, t1⟩
    rw [hde] at htr
    have ht1 : t1 = t ++ [Call.delOverride ep.setIdentifier] := htr
    cases res with
    | error e1 =>
      simp only [deleteEndpoints, hde, Prod.mk.injEq] at h
      exact absurd h.1 (by simp)
    | ok u =>
      simp only [deleteEndpoints, hde] at h
      rw [ih t1 t2 h, ht1]
      simp

def chDel1 : Changes := { delete := [epDel] }

/-- C1 counterexample: a deletion that fails with a transport error still
aborts the apply (no create, no reconfigure), but the surfaced error does
not wrap `RequestFailed` — it wraps the transport error — contradicting
the claim that any deletion failure surfaces an error wrapping
`RequestFailed`. -/
theorem delete_transport_failure_cex :
    applyChanges downOracle [] chDel1 =
      (Except.error (GoErr.wrap "plan delete" (GoErr.wrap "delete.this"
        (GoErr.wrap "delete http do" (GoErr.external "connection refused")))),
       [Call.delOverride "uuid-1"], []) ∧
    isRequestFailed (GoErr.wrap "plan delete" (GoErr.wrap "delete.this"
      (GoErr.wrap "delete http do" (GoErr.external "connection refused")))) = false := by
  exact ⟨rfl, by decide⟩

/-- C1 (amended): if any deletion (from the combined Delete + UpdateOld
list, in list order) fails, `ApplyChanges` returns that failure wrapped
with the failing record's name — wrapping `RequestFailed` when the remote
responded (non-OK status or wrong result), or the propagated transport
error otherwise — and the issued calls are deletions only: no create and
no reconfigure call.  If all deletions succeed but some creation (from
Create + UpdateNew, in order) fails, the error is the creation failure
(same two shapes), every deletion was already performed and not
compensated, and no reconfigure call is issued. -/
theorem applyChanges_failure_ordering (o : Oracle) (c : Cache) (ch : Changes)
    (hch : hasChanges ch = true) :
    (∀ e t, deleteEndpoints o [] (ch.delete ++ ch.updateOld) = (.error e, t) →
      applyChanges o c ch =
        (.error (GoErr.wrap "plan delete" e), t, updateFromPlan c ch) ∧
      (∀ cl ∈ t, ∃ id, cl = Call.delOverride id) ∧
      (∃ ep ∈ ch.delete ++ ch.updateOld, ∃ e2, e = GoErr.wrap ep.dnsName e2 ∧
        (isRequestFailed e2 = true ∨
         ∃ m, e2 = GoErr.wrap "delete http do" (GoErr.external m)))) ∧
    (∀ t e t2, deleteEndpoints o [] (ch.delete ++ ch.updateOld) = (.ok (), t) →
      createEndpoints o t (updateFromPlan c ch) (ch.create ++ ch.updateNew) =
        (.error e, t2) →
      applyChanges o c ch =
        (.error (GoErr.wrap "plan create" e), t2, updateFromPlan c ch) ∧
      t = (ch.delete ++ ch.updateOld).map (fun ep => Call.delOverride ep.setIdentifier) ∧
      (∃ ext, t2 = t ++ ext ∧ ∀ cl ∈ ext, ∃ h, cl = Call.addOverride h) ∧
      Call.reconfigure ∉ t2 ∧
      (isRequestFailed e = true ∨
       ∃ m, e = GoErr.wrap "create endpoint"
         (GoErr.wrap "create http do" (GoErr.external m)))) := by
  constructor
  · intro e t hdel
    have happ : applyChanges o c ch =
        (.error (GoErr.wrap "plan delete" e), t, updateFromPlan c ch) := by
      simp only [applyChanges, hch, Bool.not_true, Bool.false_eq_true, if_false, hdel]
    refine ⟨happ, ?_, ?_⟩
    · obtain ⟨ext, hext, hall⟩ := deleteEndpoints_trace o (ch.delete ++ ch.updateOld) []
      rw [hdel] at hext
      have ht : t = ext := by simpa using hext
      intro cl hcl
      exact hall cl (ht ▸ hcl)
    · obtain ⟨ep, hmem, e2, he2, hshape⟩ :=
        deleteEndpoints_error_cases o (ch.delete ++ ch.updateOld) [] e
          (congrArg Prod.fst hdel)
      refine ⟨ep, hmem, e2, he2, ?_⟩
      rcases hshape with ⟨m, hm⟩ | hm | hm
      · exact Or.inr ⟨m, hm⟩
      · exact Or.inl (by rw [hm]; decide)
      · exact Or.inl (by rw [hm]; decide)
  · intro t e t2 hdel hcre
    have happ : applyChanges o c ch =
        (.error (GoErr.wrap "plan create" e), t2, updateFromPlan c ch) := by
      simp only [applyChanges, hch, Bool.not_true, Bool.false_eq_true, if_false,
        hdel, hcre]
    have ht := deleteEndpoints_ok_trace o (ch.delete ++ ch.updateOld) [] t hdel
    have ht' : t = (ch.delete ++ ch.updateOld).map
        (fun ep => Call.delOverride ep.setIdentifier) := by simpa using ht
    obtain ⟨ext, hext, hall⟩ :=
      createEndpoints_trace o (updateFromPlan c ch) (ch.create ++ ch.updateNew) t
    rw [hcre] at hext
    have ht2 : t2 = t ++ ext := hext
    refine ⟨happ, ht', ⟨ext, ht2, hall⟩, ?_, ?_⟩
    · rw [ht2]
      intro hmem
      rcases List.mem_append.mp hmem with hm | hm
      · rw [ht'] at hm
        obtain ⟨ep2, _, hcl⟩ := List.mem_map.mp hm
        exact absurd hcl (by simp)
      · obtain ⟨h2, hh⟩ := hall _ hm
        exact absurd hh (by simp)
    · obtain ⟨e2, he2, hshape⟩ :=
        createEndpoints_error_cases o (updateFromPlan c ch)
          (ch.create ++ ch.updateNew) t e (congrArg Prod.fst hcre)
      rcases hshape with ⟨m, hm⟩ | hm | hm
      · exact Or.inr ⟨m, by rw [he2, hm]⟩
      · exact Or.inl (by rw [he2, hm]; decide)
      · exact Or.inl (by rw [he2, hm]; decide)

/-- C1 witness: the amended theorem applied to a one-record deletion plan
against the always-500 server: the deletion fails with `RequestFailed`
wrapped with the record's name and no create or reconfigure call is
issued. -/
theorem applyChanges_failure_ordering_witness :
    hasChanges chDel1 = true ∧
    deleteEndpoints failOracle [] (chDel1.delete ++ chDel1.updateOld) =
      (.error (GoErr.wrap "delete.this"
        (GoErr.wrap "response status" GoErr.requestFailed)),
       [Call.delOverride "uuid-1"]) ∧
    (applyChanges failOracle [] chDel1 =
      (.error (GoErr.wrap "plan delete" (GoErr.wrap "delete.this"
        (GoErr.wrap "response status" GoErr.requestFailed))),
       [Call.delOverride "uuid-1"], updateFromPlan [] chDel1) ∧
     (∀ cl ∈ [Call.delOverride "uuid-1"], ∃ id, cl = Call.delOverride id) ∧
     (∃ ep ∈ chDel1.delete ++ chDel1.updateOld, ∃ e2,
        GoErr.wrap "delete.this" (GoErr.wrap "response status" GoErr.requestFailed) =
          GoErr.wrap ep.dnsName e2 ∧
        (isRequestFailed e2 = true ∨
         ∃ m, e2 = GoErr.wrap "delete http do" (GoErr.external m)))) :=
  ⟨by decide, rfl,
   (applyChanges_failure_ordering failOracle [] chDel1 (by decide)).1 _ _ rfl⟩

/-- C5 witness: the error-kind theorem applied to the always-500 server
(read fails as `RequestFailed`) and to the unparsable-body server (read
fails as `ErrMarshalling`). -/
theorem records_error_kinds_witness :
    (failOracle [] Call.search = DoResult.resp { status := 500, body := {} } ∧
      (500 : Nat) ≠ 200 ∧
      ((records failOracle []).1 =
        Except.error (GoErr.wrap "status" GoErr.requestFailed) ∧
       isRequestFailed (GoErr.wrap "status" GoErr.requestFailed) = true ∧
       isMarshalling (GoErr.wrap "status" GoErr.requestFailed) = false)) ∧
    (badBodyOracle [] Call.search = DoResult.resp { status := 200, body := {} } ∧
      ((records badBodyOracle []).1 = Except.error (GoErr.join GoErr.marshalling
        (GoErr.wrap "unmarshal resp" (GoErr.external "unmarshal"))) ∧
       isMarshalling (GoErr.join GoErr.marshalling
        (GoErr.wrap "unmarshal resp" (GoErr.external "unmarshal"))) = true ∧
       isRequestFailed (GoErr.join GoErr.marshalling
        (GoErr.wrap "unmarshal resp" (GoErr.external "unmarshal"))) = false)) :=
  ⟨⟨rfl, by decide,
    (records_error_kinds failOracle []).1 { status := 500, body := {} } rfl (by decide)⟩,
   ⟨rfl,
    (records_error_kinds badBodyOracle []).2 { status := 200, body := {} } rfl rfl rfl⟩⟩

/-- C6 witness: the description-stamping theorem applied to a concrete A
record whose name has no entry in an empty cache. -/
theorem createRequestJSON_description_stamp_witness :
    cacheFind [] epA.dnsName = none ∧
    (createRequestJSON [] epA).length = epA.targets.length ∧
    (∀ r ∈ createRequestJSON [] epA,
      r.description = descriptionMark ++ " " ++ goBase64Encode (cacheGet [] epA.dnsName)) ∧
    (∀ r ∈ createRequestJSON [] epA, r.description = descriptionMark ++ " ") :=
  ⟨rfl, (createRequestJSON_description_stamp [] epA).1,
   (createRequestJSON_description_stamp [] epA).2.1,
   (createRequestJSON_description_stamp [] epA).2.2 rfl⟩

/-- C10 witness: the cache-preservation theorem applied to a failing read
against a non-empty cache — the cache comes back unchanged. -/
theorem records_cache_update_witness :
    records failOracle [("k", "v")] =
      (Except.error (GoErr.wrap "status" GoErr.requestFailed), [Call.search],
        ([("k", "v")] : Cache)) ∧
    ([("k", "v")] : Cache) = [("k", "v")] :=
  ⟨rfl,
   (records_cache_update failOracle [("k", "v")]).1
     (GoErr.wrap "status" GoErr.requestFailed) [Call.search] [("k", "v")] rfl⟩

end Boundation
